import Mathlib

/-!
Verification of the shared-memory pool and buffer lifecycle manager of
`src/wayland-shm.c`.  The C functions are shallowly embedded as pure Lean
functions; machine `int32_t` arithmetic that can wrap is made explicit
through `wrap32`, C truncating division is `Int.tdiv`, and the external
collaborators (malloc, mmap/mremap, resource creation) are supplied as
explicit oracle values so that every control path of the C code is a
value of the embedded function.
-/

namespace WaylandShm

/-- `INT32_MAX` from `<stdint.h>`, the bound used by the geometry check. -/
def INT32_MAX : Int := 2147483647

/-- `INT32_MIN` from `<stdint.h>`. -/
def INT32_MIN : Int := -2147483648

/-- Protocol constant `WL_SHM_FORMAT_ARGB8888`. -/
def WL_SHM_FORMAT_ARGB8888 : Nat := 0

/-- Protocol constant `WL_SHM_FORMAT_XRGB8888`. -/
def WL_SHM_FORMAT_XRGB8888 : Nat := 1

/-- The protocol error codes posted by `wayland-shm.c`:
`WL_SHM_ERROR_INVALID_FORMAT`, `WL_SHM_ERROR_INVALID_STRIDE` (the
geometry error) and `WL_SHM_ERROR_INVALID_FD` (the mapping error). -/
inductive ShmError where
  | invalidFormat
  | invalidStride
  | invalidFd
deriving DecidableEq

/-- Reduction of a mathematical integer to the value an `int32_t` holds
after two's-complement wrap-around. -/
def wrap32 (x : Int) : Int := (x + 2147483648) % 4294967296 - 2147483648

/-- `struct wl_shm_pool`: reference count, base address of the mapped
region (`data`, modelled as an abstract address) and its size. -/
structure Pool where
  refcount : Int
  data : Int
  size : Int
deriving DecidableEq

/-- `struct wl_shm_buffer`: geometry fields and, in place of the
`pool` pointer, a flag saying whether the buffer is pool-backed
(`pool != NULL`). -/
structure Buffer where
  width : Int
  height : Int
  stride : Int
  format : Nat
  offset : Int
  poolBacked : Bool
deriving DecidableEq

/-- The `switch (format)` whitelist at the top of
`shm_pool_create_buffer` and `wl_shm_buffer_create`. -/
def formatWhitelisted (format : Nat) : Bool :=
  format == WL_SHM_FORMAT_ARGB8888 || format == WL_SHM_FORMAT_XRGB8888

/-- The first four disjuncts of the bounds check of
`shm_pool_create_buffer` are all false: by C short-circuit evaluation
this is exactly the condition under which the division
`INT32_MAX / stride` is evaluated. -/
def strideDivReached (offset width height stride : Int) : Bool :=
  !(decide (offset < 0) || decide (width ≤ 0) || decide (height ≤ 0) ||
    decide (stride < width))

/-- The bounds check of `shm_pool_create_buffer` (lines 106-108):

`offset < 0 || width <= 0 || height <= 0 || stride < width ||
 INT32_MAX / stride <= height || offset > pool->size - stride * height`.

The division is C truncating division, and the products/differences the
C code computes in `int32_t` are wrapped with `wrap32`. -/
def geometryInvalid (poolSize offset width height stride : Int) : Bool :=
  decide (offset < 0) || decide (width ≤ 0) || decide (height ≤ 0) ||
  decide (stride < width) ||
  decide (INT32_MAX.tdiv stride ≤ height) ||
  decide (offset > wrap32 (poolSize - wrap32 (stride * height)))

/-- `shm_pool_unref`: decrement the refcount; when it reaches zero,
`munmap` the region and `free` the pool.  The boolean records whether
that teardown happened in this call. -/
def shm_pool_unref (pool : Pool) : Pool × Bool :=
  let p : Pool := { pool with refcount := pool.refcount - 1 }
  if p.refcount ≠ 0 then (p, false) else (p, true)

/-- Outcomes of the external collaborators invoked by
`shm_pool_create_buffer` and `wl_shm_buffer_create`: whether `malloc`
succeeds and whether `wl_resource_create` succeeds. -/
structure CreateOracle where
  mallocOk : Bool
  resourceOk : Bool
deriving DecidableEq

/-- What `shm_pool_create_buffer` reports back: a posted protocol
error, a posted no-memory event, or a registered buffer. -/
inductive CreateBufferResult where
  | postedError (e : ShmError)
  | noMemory
  | created (b : Buffer)
deriving DecidableEq

/-- Full outcome of one `shm_pool_create_buffer` call: the report, the
pool state after the call, whether the pool was torn down during the
call, and whether a malloc'ed buffer was freed during the call. -/
structure CreateBufferOutcome where
  result : CreateBufferResult
  pool : Pool
  poolFreed : Bool
  bufferFreed : Bool
deriving DecidableEq

/-- `shm_pool_create_buffer` (lines 86-142): format whitelist check,
bounds check, `malloc`, field initialization with
`pool->refcount++`, then `wl_resource_create`; if the latter fails the
reference is released again and the buffer freed. -/
def shm_pool_create_buffer (o : CreateOracle) (pool : Pool)
    (offset width height stride : Int) (format : Nat) : CreateBufferOutcome :=
  if formatWhitelisted format = false then
    ⟨CreateBufferResult.postedError ShmError.invalidFormat, pool, false, false⟩
  else if geometryInvalid pool.size offset width height stride = true then
    ⟨CreateBufferResult.postedError ShmError.invalidStride, pool, false, false⟩
  else if o.mallocOk = false then
    ⟨CreateBufferResult.noMemory, pool, false, false⟩
  else
    let p2 : Pool := { pool with refcount := pool.refcount + 1 }
    if o.resourceOk = false then
      let u := shm_pool_unref p2
      ⟨CreateBufferResult.noMemory, u.1, u.2, true⟩
    else
      ⟨CreateBufferResult.created ⟨width, height, stride, format, offset, true⟩,
        p2, false, false⟩

/-- `destroy_buffer`: release the pool reference when the buffer is
pool-backed; standalone buffers touch no pool. -/
def destroy_buffer (b : Buffer) (pool : Pool) : Pool × Bool :=
  if b.poolBacked then shm_pool_unref pool else (pool, false)

/-- `destroy_pool`: the pool handle's destructor releases the handle's
own reference. -/
def destroy_pool (pool : Pool) : Pool × Bool :=
  shm_pool_unref pool

/-- `shm_pool_resize` (lines 158-176): `mremap` the region; on
`MAP_FAILED` post `WL_SHM_ERROR_INVALID_FD` and leave the pool
untouched, otherwise install the new base address and size.  The
`remap` argument is the oracle value returned by `mremap`. -/
def shm_pool_resize (remap : Option Int) (pool : Pool) (size : Int) :
    Pool × Option ShmError :=
  match remap with
  | none => (pool, some ShmError.invalidFd)
  | some newBase => ({ pool with data := newBase, size := size }, none)

/-- `wl_shm_buffer_get_data` (lines 326-333): for a pool-backed buffer
return `pool->data + offset` computed from the pool's current state
(`bufferPool` is the dereference of `buffer->pool`); for a standalone
buffer return the address of the inline storage `buffer + 1`
(`privateBase`). -/
def wl_shm_buffer_get_data (bufferPool : Option Pool) (privateBase : Int)
    (b : Buffer) : Int :=
  match bufferPool with
  | some pool => pool.data + b.offset
  | none => privateBase

/-- A protocol resource handle carrying user data, as far as
`wl_shm_buffer_get` inspects it.  Only handles whose user data is an shm
buffer are relevant to the accessor's success branch. -/
structure Resource where
  userData : Buffer
deriving DecidableEq

/-- `wl_shm_buffer_get` (lines 307-318).  Modelled from the spec: the
substrate predicate `wl_resource_instance_of(resource,
&wl_buffer_interface, &shm_buffer_interface)` is not part of
`wayland-shm.c`; per the interface description it is an opaque boolean
test and is passed in as `instanceOf`.  A `NULL` argument is `none`. -/
def wl_shm_buffer_get (instanceOf : Resource → Bool)
    (resource : Option Resource) : Option Buffer :=
  match resource with
  | none => none
  | some r => if instanceOf r then some r.userData else none

/-- Outcome of `wl_shm_buffer_create`: the returned buffer (or `NULL`)
and, when `malloc` ran and succeeded, the number of private payload
bytes it was asked for beyond the header (the `stride * height` part of
`malloc(sizeof *buffer + stride * height)`). -/
structure StandaloneOutcome where
  result : Option Buffer
  privateBytes : Option Int
deriving DecidableEq

/-- `wl_shm_buffer_create` (lines 267-305): format whitelist check,
`malloc(sizeof *buffer + stride * height)`, field initialization with
`offset = 0` and `pool = NULL`, then `wl_resource_create`; if the
latter fails the buffer is freed and `NULL` returned.  No check of
width, height or stride is performed. -/
def wl_shm_buffer_create (o : CreateOracle) (width height stride : Int)
    (format : Nat) : StandaloneOutcome :=
  if formatWhitelisted format = false then ⟨none, none⟩
  else if o.mallocOk = false then ⟨none, none⟩
  else if o.resourceOk = false then ⟨none, some (stride * height)⟩
  else ⟨some ⟨width, height, stride, format, 0, false⟩, some (stride * height)⟩

/-- Outcomes of the external collaborators invoked by
`shm_create_pool`: whether `malloc` succeeds, the base address returned
by `mmap` (`none` is `MAP_FAILED`), and whether `wl_resource_create`
succeeds. -/
structure PoolOracle where
  mallocOk : Bool
  mmapBase : Option Int
  resourceOk : Bool
deriving DecidableEq

/-- Full outcome of one `shm_create_pool` call: the registered pool on
success, whether `close(fd)` was executed before returning, how many
times `munmap` ran during the call, whether the malloc'ed pool object
was freed, and what was posted to the client. -/
structure CreatePoolOutcome where
  pool : Option Pool
  fdClosed : Bool
  unmapCount : Nat
  poolFreed : Bool
  postedError : Option ShmError
  postedNoMemory : Bool
deriving DecidableEq

/-- `shm_create_pool` (lines 184-234): `malloc` the pool (on failure
post no-memory and jump to `err_close`, which closes the fd and frees
the null pointer); reject `size <= 0` via `goto err_free` (which does
not close the fd); `mmap`, jumping to `err_free` on `MAP_FAILED` (fd
again not closed); `close(fd)`; `wl_resource_create`, unwinding with
`munmap` + `free` on failure; otherwise register the pool with
`refcount = 1`. -/
def shm_create_pool (o : PoolOracle) (size : Int) : CreatePoolOutcome :=
  if o.mallocOk = false then
    ⟨none, true, 0, false, none, true⟩
  else if size ≤ 0 then
    ⟨none, false, 0, true, some ShmError.invalidStride, false⟩
  else
    match o.mmapBase with
    | none => ⟨none, false, 0, true, some ShmError.invalidFd, false⟩
    | some base =>
      if o.resourceOk = false then
        ⟨none, true, 1, true, none, true⟩
      else
        ⟨some ⟨1, base, size⟩, true, 0, false, none, false⟩

/-- A destruction request arriving at the lifecycle controller: either
`wl_resource_destroy` of a buffer handle (running `destroy_buffer` on
its buffer) or of the pool handle (running `destroy_pool`). -/
inductive DestroyAction where
  | destroyBufferHandle (b : Buffer)
  | destroyPoolHandle
deriving DecidableEq

/-- Dispatch one destruction request against the pool state. -/
def applyDestroy (pool : Pool) : DestroyAction → Pool × Bool
  | DestroyAction.destroyBufferHandle b => destroy_buffer b pool
  | DestroyAction.destroyPoolHandle => destroy_pool pool

/-- Whether a destruction request releases one pool reference: the pool
handle always does, a buffer handle does exactly when its buffer is
pool-backed. -/
def releasesRef : DestroyAction → Bool
  | DestroyAction.destroyBufferHandle b => b.poolBacked
  | DestroyAction.destroyPoolHandle => true

/-- Run a sequence of destruction requests, counting how many times the
pool's region was unmapped and the pool freed along the way. -/
def runDestroys (pool : Pool) : List DestroyAction → Pool × Nat
  | [] => (pool, 0)
  | a :: l =>
    let step := applyDestroy pool a
    let rest := runDestroys step.1 l
    (rest.1, (if step.2 then 1 else 0) + rest.2)

/-- The buffer produced by a create-buffer request with offset 0,
width 1, height 1, stride 1 and format `ARGB8888`. -/
def demoBuffer : Buffer := ⟨1, 1, 1, WL_SHM_FORMAT_ARGB8888, 0, true⟩

/-- Iterate `n` successful create-buffer requests (offset 0, width 1,
height 1, stride 1, `ARGB8888`, all oracles succeeding) against the
pool; the boolean records that every single request really returned a
registered buffer. -/
def createN (pool : Pool) : Nat → Pool × Bool
  | 0 => (pool, true)
  | n + 1 =>
    let r := createN pool n
    let out := shm_pool_create_buffer ⟨true, true⟩ r.1 0 1 1 1 WL_SHM_FORMAT_ARGB8888
    (out.pool, r.2 && decide (out.result = CreateBufferResult.created demoBuffer))

/-- `wrap32` is the identity on values already representable in
`int32_t`. -/
theorem wrap32_eq {x : Int} (h1 : -2147483648 ≤ x) (h2 : x < 2147483648) :
    wrap32 x = x := by
  unfold wrap32
  rw [Int.emod_eq_of_lt (by omega) (by omega)]
  omega

/-- For positive `stride`, the division guard
`INT32_MAX / stride <= height` holds exactly when
`stride * (height + 1)` exceeds `INT32_MAX`. -/
theorem strideDiv_le_iff {s h : Int} (hs : 0 < s) :
    INT32_MAX.tdiv s ≤ h ↔ INT32_MAX < s * (h + 1) := by
  rw [Int.tdiv_eq_ediv (by norm_num [INT32_MAX]) (le_of_lt hs)]
  constructor
  · intro hle
    have h2 : INT32_MAX / s < h + 1 := by omega
    have h3 := (Int.ediv_lt_iff_lt_mul hs).1 h2
    linarith [h3]
  · intro hlt
    have h3 : INT32_MAX < (h + 1) * s := by linarith [hlt]
    have h4 := (Int.ediv_lt_iff_lt_mul hs).2 h3
    omega

/-- Exact characterization of the tuples the bounds check of
`shm_pool_create_buffer` lets through, for any pool size in the range a
live pool can have: non-negative offset, positive width and height,
stride at least the width in pixels, `stride * (height + 1)` within
`INT32_MAX`, and footprint inside the pool.  In this regime every
intermediate `int32_t` computation is exact, so no wrap-around occurs. -/
theorem geometryInvalid_eq_false_iff {ps o w h s : Int}
    (hps0 : 0 ≤ ps) (hpsM : ps ≤ INT32_MAX) :
    geometryInvalid ps o w h s = false ↔
      (0 ≤ o ∧ 0 < w ∧ 0 < h ∧ w ≤ s ∧ s * (h + 1) ≤ INT32_MAX ∧
        o + s * h ≤ ps) := by
  have hM : INT32_MAX = 2147483647 := rfl
  unfold geometryInvalid
  simp only [Bool.or_eq_false_iff, decide_eq_false_iff_not, not_lt, not_le,
    and_assoc]
  constructor
  · rintro ⟨h1, h2, h3, h4, h5, h6⟩
    have hw : 0 < w := h2
    have hh : 0 < h := h3
    have hs : 0 < s := lt_of_lt_of_le hw h4
    have hmul : s * (h + 1) ≤ INT32_MAX := by
      by_contra hc
      push_neg at hc
      exact absurd ((strideDiv_le_iff hs).2 hc) (not_le.2 h5)
    have hsh : 0 < s * h := mul_pos hs hh
    have hexp : s * (h + 1) = s * h + s := by ring
    have hshM : s * h ≤ INT32_MAX - s := by linarith
    have hw1 : wrap32 (s * h) = s * h :=
      wrap32_eq (by linarith) (by rw [hM] at hshM; linarith)
    rw [hw1] at h6
    have hw2 : wrap32 (ps - s * h) = ps - s * h := by
      refine wrap32_eq (by rw [hM] at hshM; linarith) ?_
      rw [hM] at hpsM; linarith
    rw [hw2] at h6
    exact ⟨h1, h2, h3, h4, hmul, by linarith⟩
  · rintro ⟨h1, h2, h3, h4, hmul, hfit⟩
    have hs : 0 < s := lt_of_lt_of_le h2 h4
    have hsh : 0 < s * h := mul_pos hs h3
    have hexp : s * (h + 1) = s * h + s := by ring
    have hshM : s * h ≤ INT32_MAX - s := by linarith
    have hw1 : wrap32 (s * h) = s * h :=
      wrap32_eq (by linarith) (by rw [hM] at hshM; linarith)
    have hw2 : wrap32 (ps - s * h) = ps - s * h := by
      refine wrap32_eq (by rw [hM] at hshM; linarith) ?_
      rw [hM] at hpsM; linarith
    refine ⟨h1, h2, h3, h4, ?_, ?_⟩
    · have := mt (strideDiv_le_iff hs).1 (not_lt.2 hmul)
      omega
    · rw [hw1, hw2]
      linarith

/-- Whenever the mathematical product `stride * height` lies outside
the signed 32-bit range, the bounds check fires: either one of the
sign/ordering clauses already rejects the tuple, or the widening
division guard does. -/
theorem geometryInvalid_of_overflow {ps o w h s : Int}
    (hov : INT32_MAX < s * h ∨ s * h < INT32_MIN) :
    geometryInvalid ps o w h s = true := by
  unfold geometryInvalid
  by_cases h1 : o < 0
  · simp [h1]
  by_cases h2 : w ≤ 0
  · simp [h2]
  by_cases h3 : h ≤ 0
  · simp [h3]
  by_cases h4 : s < w
  · simp [h4]
  push_neg at h2 h3 h4
  have hs : 0 < s := lt_of_lt_of_le h2 h4
  rcases hov with hov | hov
  · have h5 : INT32_MAX.tdiv s ≤ h := by
      rw [strideDiv_le_iff hs]
      nlinarith
    simp [h5]
  · exfalso
    have hsh : 0 < s * h := mul_pos hs h3
    have : INT32_MIN < 0 := by norm_num [INT32_MIN]
    linarith

/-- Claim C1: whenever the mathematical product `stride * height`
overflows the signed 32-bit range, the bounds check of
`shm_pool_create_buffer` posts the invalid-stride protocol error and
never falls through to a false "fits" result. -/
theorem overflow_always_rejected (o : CreateOracle) (p : Pool)
    (offset width height stride : Int) (format : Nat)
    (hf : formatWhitelisted format = true)
    (hov : INT32_MAX < stride * height ∨ stride * height < INT32_MIN) :
    (shm_pool_create_buffer o p offset width height stride format).result =
      CreateBufferResult.postedError ShmError.invalidStride := by
  unfold shm_pool_create_buffer
  simp [hf, geometryInvalid_of_overflow hov]

/-- Witness for C1: stride `2^30` with height `8` (product `2^33`) is
rejected with the invalid-stride error. -/
theorem overflow_always_rejected_witness :
    formatWhitelisted WL_SHM_FORMAT_ARGB8888 = true ∧
    (INT32_MAX < (1073741824 : Int) * 8 ∨ (1073741824 : Int) * 8 < INT32_MIN) ∧
    (shm_pool_create_buffer ⟨true, true⟩ ⟨1, 0, 4096⟩ 0 1 8 1073741824
        WL_SHM_FORMAT_ARGB8888).result =
      CreateBufferResult.postedError ShmError.invalidStride :=
  ⟨by decide, by decide,
    overflow_always_rejected ⟨true, true⟩ ⟨1, 0, 4096⟩ 0 1 8 1073741824
      WL_SHM_FORMAT_ARGB8888 (by decide) (by decide)⟩

/-- Claim C3 counterexample: the code compares the stride against the
width in pixels, not against `4 * width` bytes, so a request with
stride `4` for a `4`-pixel-wide ARGB8888 buffer (needing `16` bytes per
row) is accepted, contradicting the claim that it is rejected. -/
theorem stride_lt_width_bytes_accepted :
    (4 : Int) < 4 * 4 ∧
    formatWhitelisted WL_SHM_FORMAT_ARGB8888 = true ∧
    (shm_pool_create_buffer ⟨true, true⟩ ⟨1, 0, 4096⟩ 0 4 1 4
        WL_SHM_FORMAT_ARGB8888).result =
      CreateBufferResult.created ⟨4, 1, 4, WL_SHM_FORMAT_ARGB8888, 0, true⟩ :=
  ⟨by norm_num, by decide, by decide⟩

/-- Claim C3 amended: with successful allocation oracles, the request
is accepted (a buffer registered) exactly when the format is
whitelisted, `offset ≥ 0`, `width > 0`, `height > 0`,
`stride ≥ width` (width in pixels), `stride * (height + 1) ≤ INT32_MAX`
and `offset + stride * height ≤ pool_size`. -/
theorem create_buffer_accepts_iff (p : Pool) (o w h s : Int) (f : Nat)
    (hps0 : 0 ≤ p.size) (hpsM : p.size ≤ INT32_MAX) :
    (shm_pool_create_buffer ⟨true, true⟩ p o w h s f).result =
      CreateBufferResult.created ⟨w, h, s, f, o, true⟩ ↔
      ((f = WL_SHM_FORMAT_ARGB8888 ∨ f = WL_SHM_FORMAT_XRGB8888) ∧
        0 ≤ o ∧ 0 < w ∧ 0 < h ∧ w ≤ s ∧ s * (h + 1) ≤ INT32_MAX ∧
        o + s * h ≤ p.size) := by
  have hfmt : formatWhitelisted f = true ↔
      (f = WL_SHM_FORMAT_ARGB8888 ∨ f = WL_SHM_FORMAT_XRGB8888) := by
    simp [formatWhitelisted]
  unfold shm_pool_create_buffer
  constructor
  · intro hres
    by_cases hf : formatWhitelisted f = true
    · by_cases hg : geometryInvalid p.size o w h s = false
      · exact ⟨hfmt.1 hf, (geometryInvalid_eq_false_iff hps0 hpsM).1 hg⟩
      · have hg' : geometryInvalid p.size o w h s = true := by
          cases hgb : geometryInvalid p.size o w h s
          · exact absurd hgb hg
          · rfl
        simp [hf, hg'] at hres
    · have hf' : formatWhitelisted f = false := by
        cases hfb : formatWhitelisted f
        · rfl
        · exact absurd hfb hf
      simp [hf'] at hres
  · rintro ⟨hfm, hgeo⟩
    have hf : formatWhitelisted f = true := hfmt.2 hfm
    have hg : geometryInvalid p.size o w h s = false :=
      (geometryInvalid_eq_false_iff hps0 hpsM).2 hgeo
    simp [hf, hg]

/-- Witness for the amended C3: the spec's scenario (a), a 32x32
ARGB8888 buffer with stride 128 in a 4096-byte pool, is accepted. -/
theorem create_buffer_accepts_iff_witness :
    (shm_pool_create_buffer ⟨true, true⟩ ⟨1, 0, 4096⟩ 0 32 32 128
        WL_SHM_FORMAT_ARGB8888).result =
      CreateBufferResult.created ⟨32, 32, 128, WL_SHM_FORMAT_ARGB8888, 0, true⟩ :=
  (create_buffer_accepts_iff ⟨1, 0, 4096⟩ 0 32 32 128 WL_SHM_FORMAT_ARGB8888
      (by decide) (by decide)).2 (by decide)

/-- Claim C5: when `mremap` fails, `shm_pool_resize` leaves the pool's
base address and size exactly as they were and posts the mapping error
`WL_SHM_ERROR_INVALID_FD`, which is distinct from both geometry
errors. -/
theorem resize_failure_preserves_state (pool : Pool) (size : Int) :
    shm_pool_resize none pool size = (pool, some ShmError.invalidFd) ∧
    ShmError.invalidFd ≠ ShmError.invalidStride ∧
    ShmError.invalidFd ≠ ShmError.invalidFormat :=
  ⟨rfl, by decide, by decide⟩

/-- Claim C6: a buffer created at offset `o` in a pool that passes the
bounds check keeps yielding `current base + o` from
`wl_shm_buffer_get_data` after a successful growing resize: the address
is recomputed from the pool's current base, so it denotes the same
logical bytes of the pool. -/
theorem buffer_data_tracks_resize (p : Pool) (o w h s : Int) (f : Nat)
    (Snew newBase priv : Int)
    (hf : formatWhitelisted f = true)
    (hg : geometryInvalid p.size o w h s = false)
    (hgrow : p.size ≤ Snew) :
    (shm_pool_create_buffer ⟨true, true⟩ p o w h s f).result =
      CreateBufferResult.created ⟨w, h, s, f, o, true⟩ ∧
    (shm_pool_resize (some newBase) p Snew).2 = none ∧
    (shm_pool_resize (some newBase) p Snew).1.data = newBase ∧
    wl_shm_buffer_get_data (some (shm_pool_resize (some newBase) p Snew).1)
        priv ⟨w, h, s, f, o, true⟩ = newBase + o ∧
    wl_shm_buffer_get_data (some p) priv ⟨w, h, s, f, o, true⟩ =
      p.data + o := by
  refine ⟨?_, rfl, rfl, rfl, rfl⟩
  unfold shm_pool_create_buffer
  simp [hf, hg]

/-- Witness for C6: after growing a 4096-byte pool to 8192 bytes at a
new base address 555, the buffer created at offset 0 resolves to
address `555 + 0`. -/
theorem buffer_data_tracks_resize_witness :
    (shm_pool_create_buffer ⟨true, true⟩ ⟨1, 77, 4096⟩ 0 32 32 128
        WL_SHM_FORMAT_ARGB8888).result =
      CreateBufferResult.created ⟨32, 32, 128, WL_SHM_FORMAT_ARGB8888, 0, true⟩ ∧
    wl_shm_buffer_get_data
        (some (shm_pool_resize (some 555) ⟨1, 77, 4096⟩ 8192).1) 0
        ⟨32, 32, 128, WL_SHM_FORMAT_ARGB8888, 0, true⟩ = 555 + 0 := by
  have hmain := buffer_data_tracks_resize ⟨1, 77, 4096⟩ 0 32 32 128
    WL_SHM_FORMAT_ARGB8888 8192 555 0 (by decide) (by decide) (by decide)
  exact ⟨hmain.1, hmain.2.2.2.1⟩

/-- Claim C10: the division `INT32_MAX / stride` in the bounds check is
reached (all four earlier short-circuited disjuncts false) only when
`stride ≥ width ≥ 1`, so it is never a division by zero; and whenever
it is not reached, the request was already rejected by the earlier
clauses. -/
theorem stride_div_safe (ps o w h s : Int) :
    (strideDivReached o w h s = true → 0 < s) ∧
    (strideDivReached o w h s = false → geometryInvalid ps o w h s = true) := by
  constructor
  · intro hr
    unfold strideDivReached at hr
    rw [Bool.not_eq_true'] at hr
    simp only [Bool.or_eq_false_iff, decide_eq_false_iff_not, not_lt, not_le,
      and_assoc] at hr
    obtain ⟨h1, h2, h3, h4⟩ := hr
    omega
  · intro hr
    unfold strideDivReached at hr
    rw [Bool.not_eq_false'] at hr
    unfold geometryInvalid
    rw [hr]
    simp

/-- Witness for C10: at `width = 1`, `stride = 1` the division is
reached and the divisor is positive; at `stride = 0`, `width = 1` the
division is not reached and the request is already rejected. -/
theorem stride_div_safe_witness :
    (0 : Int) < 1 ∧ geometryInvalid 4096 0 1 1 0 = true :=
  ⟨(stride_div_safe 4096 0 1 1 1).1 (by decide),
   (stride_div_safe 4096 0 1 1 0).2 (by decide)⟩

/-- Each of the iterated create-buffer requests of `createN` succeeds
and increments the refcount by one, leaving the base address and size
untouched. -/
theorem createN_spec (S base rc : Int) (hS1 : 1 ≤ S) (hSM : S ≤ INT32_MAX) :
    ∀ N : Nat, createN ⟨rc, base, S⟩ N = (⟨rc + N, base, S⟩, true) := by
  intro N
  induction N with
  | zero => simp [createN]
  | succ n ih =>
    have hg : geometryInvalid S 0 1 1 1 = false := by
      refine (geometryInvalid_eq_false_iff (by omega) hSM).2 ?_
      refine ⟨le_refl 0, one_pos, one_pos, le_refl 1, ?_, ?_⟩
      · norm_num [INT32_MAX]
      · omega
    have hfmt : formatWhitelisted WL_SHM_FORMAT_ARGB8888 = true := rfl
    unfold createN
    rw [ih]
    unfold shm_pool_create_buffer
    simp only [hfmt, hg, demoBuffer, Bool.true_eq_false, if_false,
      Bool.false_eq_true]
    simp [Pool.mk.injEq]
    omega

/-- When the decremented refcount is still nonzero, `shm_pool_unref`
only decrements and does not tear the pool down. -/
theorem shm_pool_unref_live {p : Pool} (h : p.refcount - 1 ≠ 0) :
    shm_pool_unref p = ({ p with refcount := p.refcount - 1 }, false) := by
  unfold shm_pool_unref
  simp [h]

/-- When the decremented refcount reaches zero, `shm_pool_unref`
unmaps the region and frees the pool. -/
theorem shm_pool_unref_last {p : Pool} (h : p.refcount - 1 = 0) :
    shm_pool_unref p = ({ p with refcount := p.refcount - 1 }, true) := by
  unfold shm_pool_unref
  simp [h]

/-- A destruction request that releases a reference acts on the pool
exactly as `shm_pool_unref`. -/
theorem applyDestroy_eq_unref {a : DestroyAction} (ha : releasesRef a = true)
    (p : Pool) : applyDestroy p a = shm_pool_unref p := by
  cases a with
  | destroyBufferHandle b =>
    have hb : b.poolBacked = true := by simpa [releasesRef] using ha
    unfold applyDestroy destroy_buffer
    simp [hb]
  | destroyPoolHandle => rfl

/-- Running strictly fewer reference-releasing destructions than the
refcount never tears the pool down. -/
theorem runDestroys_no_free :
    ∀ (l : List DestroyAction) (p : Pool),
      (∀ a ∈ l, releasesRef a = true) → (l.length : Int) < p.refcount →
      (runDestroys p l).2 = 0 := by
  intro l
  induction l with
  | nil => intro p _ _; rfl
  | cons a l ih =>
    intro p hrel hlen
    have ha : releasesRef a = true := hrel a (List.mem_cons_self a l)
    have hlist : (0 : Int) ≤ (l.length : Int) := Int.ofNat_nonneg _
    have hlen' : ((l.length : Int)) + 1 < p.refcount := by
      rw [List.length_cons] at hlen
      push_cast at hlen
      omega
    have hne : p.refcount - 1 ≠ 0 := by omega
    unfold runDestroys
    rw [applyDestroy_eq_unref ha, shm_pool_unref_live hne]
    simp only [Bool.false_eq_true, if_false, Nat.zero_add]
    exact ih _ (fun b hb => hrel b (List.mem_cons_of_mem a hb)) (by simp; omega)

/-- Running exactly as many reference-releasing destructions as the
refcount tears the pool down exactly once. -/
theorem runDestroys_free_once :
    ∀ (l : List DestroyAction) (p : Pool),
      (∀ a ∈ l, releasesRef a = true) → p.refcount = (l.length : Int) →
      0 < l.length → (runDestroys p l).2 = 1 := by
  intro l
  induction l with
  | nil => intro p _ _ h; simp at h
  | cons a l ih =>
    intro p hrel hrc _
    have ha : releasesRef a = true := hrel a (List.mem_cons_self a l)
    cases l with
    | nil =>
      have h0 : p.refcount - 1 = 0 := by
        simp only [List.length_cons, List.length_nil] at hrc
        omega
      unfold runDestroys
      rw [applyDestroy_eq_unref ha, shm_pool_unref_last h0]
      simp [runDestroys]
    | cons b l' =>
      have hrc' : p.refcount = ((b :: l').length : Int) + 1 := by
        rw [hrc, List.length_cons]
        push_cast
        ring
      have hlpos : 0 < ((b :: l').length : Int) := by
        exact_mod_cast List.length_pos.2 (List.cons_ne_nil b l')
      have hne : p.refcount - 1 ≠ 0 := by omega
      unfold runDestroys
      rw [applyDestroy_eq_unref ha, shm_pool_unref_live hne]
      simp only [Bool.false_eq_true, if_false, Nat.zero_add]
      exact ih _ (fun c hc => hrel c (List.mem_cons_of_mem a hc))
        (by show p.refcount - 1 = ((b :: l').length : Int); omega) (by simp)

/-- Claim C2: starting from a fresh pool (refcount 1), `N` successful
buffer creations raise the refcount to `N + 1`; destroying the pool
handle and the `N` buffers in any order then unmaps the region and
frees the pool exactly once, and only at the very last of the `N + 1`
releases — every proper prefix of the destruction sequence frees
nothing. -/
theorem pool_freed_exactly_once (N : Nat) (S base : Int)
    (l : List DestroyAction)
    (hS1 : 1 ≤ S) (hSM : S ≤ INT32_MAX)
    (hperm : l.Perm (DestroyAction.destroyPoolHandle ::
      List.replicate N (DestroyAction.destroyBufferHandle demoBuffer))) :
    (createN ⟨1, base, S⟩ N).2 = true ∧
    (createN ⟨1, base, S⟩ N).1.refcount = (N : Int) + 1 ∧
    (runDestroys (createN ⟨1, base, S⟩ N).1 l).2 = 1 ∧
    (∀ k : Nat, k < N + 1 →
      (runDestroys (createN ⟨1, base, S⟩ N).1 (l.take k)).2 = 0) := by
  have hcre := createN_spec S base 1 hS1 hSM N
  have hrel : ∀ a ∈ l, releasesRef a = true := by
    intro a ha
    rcases List.mem_cons.1 (hperm.mem_iff.1 ha) with h | h
    · subst h; rfl
    · rw [List.eq_of_mem_replicate h]; rfl
  have hlen : l.length = N + 1 := by
    have h := hperm.length_eq
    simpa [List.length_replicate, Nat.add_comm] using h
  rw [hcre]
  refine ⟨rfl, by simp; omega, ?_, ?_⟩
  · refine runDestroys_free_once l ⟨1 + N, base, S⟩ hrel ?_ (by omega)
    simp [hlen]
    omega
  · intro k hk
    refine runDestroys_no_free (l.take k) ⟨1 + N, base, S⟩
      (fun a ha => hrel a (List.take_subset k l ha)) ?_
    simp [List.length_take, hlen]
    omega

/-- Witness for C2 with one buffer: destroying the buffer handle first
and the pool handle second frees the pool exactly once, and nothing is
freed after the first of the two releases. -/
theorem pool_freed_exactly_once_witness :
    (runDestroys (createN ⟨1, 0, 4096⟩ 1).1
        [DestroyAction.destroyBufferHandle demoBuffer,
         DestroyAction.destroyPoolHandle]).2 = 1 ∧
    (runDestroys (createN ⟨1, 0, 4096⟩ 1).1
        ([DestroyAction.destroyBufferHandle demoBuffer,
          DestroyAction.destroyPoolHandle].take 1)).2 = 0 :=
  ⟨(pool_freed_exactly_once 1 4096 0
      [DestroyAction.destroyBufferHandle demoBuffer,
       DestroyAction.destroyPoolHandle]
      (by norm_num) (by norm_num [INT32_MAX]) (by decide)).2.2.1,
   (pool_freed_exactly_once 1 4096 0
      [DestroyAction.destroyBufferHandle demoBuffer,
       DestroyAction.destroyPoolHandle]
      (by norm_num) (by norm_num [INT32_MAX]) (by decide)).2.2.2 1
     (by norm_num)⟩

/-- Claim C4 evaluation: `shm_create_pool` leaks the file descriptor on
the non-positive-size path and on the mmap-failure path (both jump to
`err_free`, past the `close(fd)`), while the success, malloc-failure
and resource-failure paths do close it. -/
theorem create_pool_fd_leak :
    (shm_create_pool ⟨true, some 0, true⟩ 0).fdClosed = false ∧
    (shm_create_pool ⟨true, none, true⟩ 4096).fdClosed = false ∧
    (shm_create_pool ⟨true, some 0, true⟩ 4096).fdClosed = true ∧
    (shm_create_pool ⟨false, some 0, true⟩ 4096).fdClosed = true ∧
    (shm_create_pool ⟨true, some 0, false⟩ 4096).fdClosed = true :=
  ⟨by decide, by decide, by decide, by decide, by decide⟩

/-- Claim C7 counterexample: `wl_shm_buffer_create` performs no
positivity check, so a request with negative width (all external
allocations succeeding) returns a buffer instead of an error. -/
theorem standalone_no_positivity_check :
    (-1 : Int) ≤ 0 ∧
    (wl_shm_buffer_create ⟨true, true⟩ (-1) 1 4 WL_SHM_FORMAT_ARGB8888).result =
      some ⟨-1, 1, 4, WL_SHM_FORMAT_ARGB8888, 0, false⟩ :=
  ⟨by norm_num, by decide⟩

/-- Claim C7 amended: standalone creation validates only the format
against the whitelist (returning NULL otherwise, and on allocation or
handle-creation failure); it never checks width, height or stride, and
on success it allocates `stride * height` bytes of private storage and
returns a standalone buffer (no pool reference, offset 0). -/
theorem standalone_create_spec (orc : CreateOracle) (w h s : Int) (f : Nat) :
    (formatWhitelisted f = false →
      wl_shm_buffer_create orc w h s f = ⟨none, none⟩) ∧
    (formatWhitelisted f = true → orc.mallocOk = true → orc.resourceOk = true →
      wl_shm_buffer_create orc w h s f =
        ⟨some ⟨w, h, s, f, 0, false⟩, some (s * h)⟩) := by
  constructor
  · intro hf
    unfold wl_shm_buffer_create
    simp [hf]
  · intro hf hm hr
    unfold wl_shm_buffer_create
    simp [hf, hm, hr]

/-- Witness for the amended C7: format 7 yields NULL; a valid
XRGB8888 request succeeds even though no geometry is checked, with
`128 * 32` private bytes. -/
theorem standalone_create_spec_witness :
    wl_shm_buffer_create ⟨true, true⟩ 5 0 (-7) 7 = ⟨none, none⟩ ∧
    wl_shm_buffer_create ⟨true, true⟩ 32 32 128 WL_SHM_FORMAT_XRGB8888 =
      ⟨some ⟨32, 32, 128, WL_SHM_FORMAT_XRGB8888, 0, false⟩, some (128 * 32)⟩ :=
  ⟨(standalone_create_spec ⟨true, true⟩ 5 0 (-7) 7).1 (by decide),
   (standalone_create_spec ⟨true, true⟩ 32 32 128 WL_SHM_FORMAT_XRGB8888).2
     (by decide) rfl rfl⟩

/-- Claim C8: when handle creation fails after partial construction,
`shm_pool_create_buffer` undoes the refcount increment and frees the
buffer storage, leaving the pool state exactly as before the call and
registering nothing; and `shm_create_pool` unmaps the freshly mapped
region and frees the pool object, returning no pool. -/
theorem partial_construction_unwound (p : Pool) (o w h s : Int) (f : Nat)
    (size base : Int)
    (hrc : 1 ≤ p.refcount)
    (hf : formatWhitelisted f = true)
    (hg : geometryInvalid p.size o w h s = false)
    (hsz : 0 < size) :
    ((shm_pool_create_buffer ⟨true, false⟩ p o w h s f).result =
        CreateBufferResult.noMemory ∧
      (shm_pool_create_buffer ⟨true, false⟩ p o w h s f).pool.refcount =
        p.refcount ∧
      (shm_pool_create_buffer ⟨true, false⟩ p o w h s f).pool.data = p.data ∧
      (shm_pool_create_buffer ⟨true, false⟩ p o w h s f).pool.size = p.size ∧
      (shm_pool_create_buffer ⟨true, false⟩ p o w h s f).bufferFreed = true ∧
      (shm_pool_create_buffer ⟨true, false⟩ p o w h s f).poolFreed = false) ∧
    ((shm_create_pool ⟨true, some base, false⟩ size).pool = none ∧
      (shm_create_pool ⟨true, some base, false⟩ size).unmapCount = 1 ∧
      (shm_create_pool ⟨true, some base, false⟩ size).poolFreed = true ∧
      (shm_create_pool ⟨true, some base, false⟩ size).fdClosed = true) := by
  have hnsz : ¬(size ≤ 0) := by omega
  constructor
  · have hu : shm_pool_unref { p with refcount := p.refcount + 1 } =
        ({ p with refcount := p.refcount + 1 - 1 }, false) := by
      refine shm_pool_unref_live ?_
      show p.refcount + 1 - 1 ≠ 0
      omega
    unfold shm_pool_create_buffer
    simp [hf, hg, hu]
    try omega
  · unfold shm_create_pool
    simp [hnsz]

/-- Witness for C8 at a concrete pool and geometry. -/
theorem partial_construction_unwound_witness :
    (shm_pool_create_buffer ⟨true, false⟩ ⟨1, 0, 4096⟩ 0 32 32 128
        WL_SHM_FORMAT_ARGB8888).pool.refcount = 1 ∧
    (shm_create_pool ⟨true, some 9, false⟩ 4096).unmapCount = 1 := by
  have hmain := partial_construction_unwound ⟨1, 0, 4096⟩ 0 32 32 128
    WL_SHM_FORMAT_ARGB8888 4096 9 (by norm_num) (by decide) (by decide)
    (by norm_num)
  exact ⟨hmain.1.2.1, hmain.2.2.1⟩

/-- Claim C9: `wl_shm_buffer_get` is total over arbitrary handles — a
NULL handle yields NULL, a handle that fails the
`wl_resource_instance_of` check yields NULL, and a handle that passes
it yields exactly its user data. -/
theorem buffer_get_total (instanceOf : Resource → Bool) (r : Resource) :
    wl_shm_buffer_get instanceOf none = none ∧
    (instanceOf r = false → wl_shm_buffer_get instanceOf (some r) = none) ∧
    (instanceOf r = true →
      wl_shm_buffer_get instanceOf (some r) = some r.userData) := by
  refine ⟨rfl, ?_, ?_⟩
  · intro hfail
    unfold wl_shm_buffer_get
    simp [hfail]
  · intro hpass
    unfold wl_shm_buffer_get
    simp [hpass]

/-- Witness for C9 at concrete instance checks and a concrete handle. -/
theorem buffer_get_total_witness :
    wl_shm_buffer_get (fun _ => true) none = none ∧
    wl_shm_buffer_get (fun _ => false) (some ⟨demoBuffer⟩) = none ∧
    wl_shm_buffer_get (fun _ => true) (some ⟨demoBuffer⟩) = some demoBuffer :=
  ⟨(buffer_get_total (fun _ => true) ⟨demoBuffer⟩).1,
   (buffer_get_total (fun _ => false) ⟨demoBuffer⟩).2.1 rfl,
   (buffer_get_total (fun _ => true) ⟨demoBuffer⟩).2.2 rfl⟩

end WaylandShm
